import Mathlib

/-!
Verification development for powerscan (src/powerscan.c, latest revision).

The embedding below follows the C source closely.  C `double` and `float`
values are modelled as exact rationals (IEEE rounding is not modelled);
`int`, `long` and `int_least64_t` values are modelled as unbounded `ℤ`
(overflow is not modelled).  C integer division truncates toward zero and is
rendered as `Int.tdiv`; a C cast from `double` to an integer type also
truncates toward zero and is rendered as `dtoi`.  Fallible operations return
`Option` or a success flag.  Line numbers refer to src/powerscan.c.
-/

namespace Powerscan

/-- Truncation toward zero, the behaviour of a C cast from `double` to an
integer type (applied to an exactly represented rational). -/
def dtoi (q : ℚ) : ℤ := if 0 ≤ q then ⌊q⌋ else ⌈q⌉

/-- C integer division (`/` on integer types truncates toward zero). -/
def cdiv (a b : ℤ) : ℤ := Int.tdiv a b

/-- `FFT_MAX_BITS` (line 1118): 65536-element FFT at most. -/
def FFT_MAX_BITS : ℕ := 16

/-- `MIN_DWELL_TIME` (line 1119): minimum time on each tuning, microseconds. -/
def MIN_DWELL_TIME : ℤ := 100000

/-- `MAX_CROP_RATIO` (line 1120), written 0.6 in the source. -/
def max_crop_ratio : ℚ := mkRat 3 5

/-- `MAX_SAMPLES` (line 1122): maximum I/Q pairs received per buffer. -/
def MAX_SAMPLES : ℤ := 2 ^ FFT_MAX_BITS

/-! ## Frequency literals (`frequency_from_str`, lines 1769-1789)

`strtod` is modelled for the decimal grammar
`[ws][sign]digits[.digits][(e|E)[sign]digits]` (hexadecimal, infinity and
NaN forms are not modelled; none is a frequency).  The parsed value is kept
exactly as `mantissa · 10^scale`, so every later multiplication by 10³/10⁶/10⁹
and the final integer cast stay in exact integer arithmetic. -/

/-- Accumulate leading decimal digits: value so far, digit count, rest. -/
def parseDigits : ℕ → ℕ → List Char → ℕ × ℕ × List Char
  | acc, n, [] => (acc, n, [])
  | acc, n, c :: cs =>
    if c.isDigit then parseDigits (10 * acc + (c.toNat - 48)) (n + 1) cs
    else (acc, n, c :: cs)

/-- The exponent part of a `strtod` literal; consumed only when at least one
digit follows, as in C (`orig` is returned unconsumed otherwise). -/
def parseExpPart (r : List Char) (orig : List Char) : ℤ × List Char :=
  match r with
  | '-' :: r2 =>
    let p := parseDigits 0 0 r2
    if p.2.1 = 0 then (0, orig) else (-(p.1 : ℤ), p.2.2)
  | '+' :: r2 =>
    let p := parseDigits 0 0 r2
    if p.2.1 = 0 then (0, orig) else ((p.1 : ℤ), p.2.2)
  | _ =>
    let p := parseDigits 0 0 r
    if p.2.1 = 0 then (0, orig) else ((p.1 : ℤ), p.2.2)

/-- `strtod(cp, &endptr)` on the decimal grammar: `some (m, sc, rest)` means
the consumed prefix denotes exactly `m · 10^sc` and `endptr` points at
`rest`; `none` means no conversion was performed (`endptr == cp`). -/
def strtodParse (s : List Char) : Option (ℤ × ℤ × List Char) :=
  let s0 := s.dropWhile fun c => c == ' ' || c == '\t'
  let signed : Bool × List Char :=
    match s0 with
    | '-' :: r => (true, r)
    | '+' :: r => (false, r)
    | _ => (false, s0)
  let p2 := parseDigits 0 0 signed.2
  let p3 : ℕ × ℕ × List Char :=
    match p2.2.2 with
    | '.' :: r => parseDigits p2.1 0 r
    | _ => (p2.1, 0, p2.2.2)
  if p2.2.1 = 0 ∧ p3.2.1 = 0 then none
  else
    let p4 : ℤ × List Char :=
      match p3.2.2 with
      | 'e' :: r => parseExpPart r p3.2.2
      | 'E' :: r => parseExpPart r p3.2.2
      | _ => (0, p3.2.2)
    some (if signed.1 then -(p3.1 : ℤ) else (p3.1 : ℤ), p4.1 - (p3.2.1 : ℤ), p4.2)

/-- The exact value `m · 10^sc` truncated toward zero, i.e. the C cast
`(Frequency)d` of the double with that exact value. -/
def pow10trunc (m sc : ℤ) : ℤ :=
  if 0 ≤ sc then m * 10 ^ sc.toNat else Int.tdiv m (10 ^ (-sc).toNat)

/-- `frequency_from_str` (lines 1769-1789): the returned `Frequency`, paired
with whether the invalid-specification error was reported to stderr. -/
def frequency_from_str (cp : String) : ℤ × Bool :=
  match strtodParse cp.data with
  | none => (0, true)
  | some (m, sc, rest) =>
    match rest with
    | [] => (pow10trunc m sc, false)
    | c :: _ =>
      if c = 'k' ∨ c = 'K' then (pow10trunc m (sc + 3), false)
      else if c = 'm' ∨ c = 'M' then (pow10trunc m (sc + 6), false)
      else if c = 'g' ∨ c = 'G' then (pow10trunc m (sc + 9), false)
      else (0, true)

/-- C `atol`: optional whitespace and sign, then leading digits (0 if none). -/
def atol (s : String) : ℤ :=
  let s0 := s.data.dropWhile fun c => c == ' ' || c == '\t'
  match s0 with
  | '-' :: r => -((parseDigits 0 0 r).1 : ℤ)
  | '+' :: r => ((parseDigits 0 0 r).1 : ℤ)
  | _ => ((parseDigits 0 0 s0).1 : ℤ)

/-- C `atof`: the value `strtod` parses, or 0 when nothing converts. -/
def atof (s : String) : ℚ :=
  match strtodParse s.data with
  | none => 0
  | some (m, sc, _) => (m : ℚ) * (10 : ℚ) ^ sc

/-! ## Command line (`gather_parameters`, lines 1813-1886) -/

/-- The fields of `ProgramConfiguration` that `gather_parameters` writes. -/
structure CLIConfig where
  verbose : Bool
  sdr_name : String
  sdr_channel : ℤ
  gain : ℤ
  start_frequency : ℤ
  end_frequency : ℤ
  frequency_resolution : ℤ
  requested_sample_rate : ℤ
  scan_time : ℤ
  crop_ratio : ℚ
  repetition_limit : ℤ
deriving DecidableEq

/-- `default_parameters` (lines 1762-1767): all zero except
`crop_ratio = 0.25` and `scan_time = 10`. -/
def default_parameters : CLIConfig :=
  { verbose := false, sdr_name := "", sdr_channel := 0, gain := 0,
    start_frequency := 0, end_frequency := 0, frequency_resolution := 0,
    requested_sample_rate := 0, scan_time := 10, crop_ratio := mkRat 1 4,
    repetition_limit := 0 }

/-- The option string passed to `getopt` (line 1818):
`"vd:C:a:g:s:e:r:c:1l:t:h?"`.  Note that it contains no `R`. -/
def optstring : List Char := "vd:C:a:g:s:e:r:c:1l:t:h?".data

/-- Whether `getopt` recognises option character `c` under `optstring`
(`:` marks an argument and is not itself an option). -/
def getopt_recognises (c : Char) : Bool := c != ':' && optstring.contains c

/-- The `switch` body of `gather_parameters` (lines 1819-1883), one option at
a time: `none` where the C code returns `false` (`help`-listing under `-d`,
`h`, `?` and the `default:` label; `case 'a'` is compiled out, so `a` also
falls to `default:`). -/
def gather_case (cfg : CLIConfig) (c : Char) (arg : String) : Option CLIConfig :=
  match c with
  | 'v' => some { cfg with verbose := true }
  | 'd' => if arg = "help" then none else some { cfg with sdr_name := arg }
  | 'C' => some { cfg with sdr_channel := atol arg }
  | 'g' => some { cfg with gain := atol arg }
  | 's' => some { cfg with start_frequency := (frequency_from_str arg).1 }
  | 'e' => some { cfg with end_frequency := (frequency_from_str arg).1 }
  | 'r' => some { cfg with frequency_resolution := (frequency_from_str arg).1 }
  | 'R' => some { cfg with requested_sample_rate := (frequency_from_str arg).1 }
  | 't' => some { cfg with scan_time := atol arg }
  | 'c' => some { cfg with crop_ratio := atof arg }
  | '1' => some { cfg with repetition_limit := 1 }
  | 'l' => some { cfg with repetition_limit := atol arg }
  | _ => none

/-- One `getopt` step: an option character not in `optstring` makes `getopt`
return `'?'`, which the switch sends to `default:`. -/
def gather_step (cfg : CLIConfig) (opt : Char × String) : Option CLIConfig :=
  gather_case cfg (if getopt_recognises opt.1 then opt.1 else '?') opt.2

/-- `gather_parameters` over a pre-split option list. -/
def gather_parameters (opts : List (Char × String)) : Option CLIConfig :=
  opts.foldlM gather_step default_parameters

/-- `select_sample_rate` (lines 1475-1482): fold over the device's sample
rates keeping the fastest seen that the requested cap (0 = no cap) allows;
`pc->sample_rate` starts at 0 from `memset`. -/
def select_sample_rate (requested : ℤ) (sample_rates : List ℚ) (sample_rate : ℚ) : ℚ :=
  sample_rates.foldl
    (fun cur r => if cur < r ∧ (requested = 0 ∨ r ≤ (requested : ℚ)) then r else cur)
    sample_rate

/-! ## Band defaulting (`initialise_configuration`, lines 1510-1546) -/

/-- Lines 1522-1533 of `initialise_configuration`: an end frequency at or
below the start is discarded (treated as unset), and an unset end frequency
centres a band of width `sample_rate · (1 − crop_ratio)` (cast to
`Frequency`) on the original start frequency.  Returns the new
`(start_frequency, end_frequency)`.  `crop_ratio` is already clamped
(lines 1511-1514) and `start_frequency > 0` already checked (line 1516). -/
def initialise_band (start_frequency end_frequency : ℤ) (sample_rate crop_ratio : ℚ) : ℤ × ℤ :=
  let e1 : ℤ :=
    if 0 < end_frequency ∧ end_frequency ≤ start_frequency then 0 else end_frequency
  if e1 ≤ 0 then
    let default_bandwidth : ℤ := dtoi (sample_rate * (1 - crop_ratio))
    let e2 : ℤ := start_frequency + cdiv default_bandwidth 2
    (e2 - default_bandwidth, e2)
  else (start_frequency, e1)

/-! ## Tuning plan (`plan_tuning`, lines 1592-1629) -/

structure TuningPlan where
  tuning_bandwidth : ℤ
  tuning_start : ℤ
  tuning_count : ℤ
  dwell_time : ℤ

/-- `plan_tuning` (lines 1592-1610): overscan by the crop amount, bandwidth
per tuning after cropping, number of tunings (ceiling of a double division),
and the dwell time floor.  The trailing report to stderr is I/O only. -/
def plan_tuning (start_frequency end_frequency : ℤ) (sample_rate crop_ratio : ℚ)
    (scan_time : ℤ) : TuningPlan :=
  let total_scan : ℤ := end_frequency - start_frequency + ⌊crop_ratio * sample_rate⌋
  let tb : ℤ := ⌈sample_rate * (1 - crop_ratio)⌉
  let ts : ℤ := start_frequency + cdiv tb 2
  let tc : ℤ := ⌈(total_scan : ℚ) / (tb : ℚ)⌉
  let dt0 : ℤ := cdiv (1000000 * scan_time) tc
  let dt : ℤ := if dt0 < MIN_DWELL_TIME then MIN_DWELL_TIME else dt0
  { tuning_bandwidth := tb, tuning_start := ts, tuning_count := tc, dwell_time := dt }

/-! ## FFT plan (`plan_fft`, lines 1631-1672) -/

structure FFTPlan where
  fft_size : ℤ
  frequency_resolution : ℤ
  power_buckets : ℤ
  power_accumulation : List ℚ
  accumulation_count : ℤ
  fft_fill : ℤ

/-- `plan_fft` (lines 1631-1672).  Line 1633 computes the resolution-driven
size, line 1634 immediately overwrites it with the constant 8192, lines
1636-1637 clamp below at 4, line 1638 recomputes the resolution, line 1640
computes `power_buckets` by rounding up, line 1651 `calloc`s the accumulator
(all zero) and line 1652 zeroes `accumulation_count`.  Allocation failure and
the FFTW plan itself are not modelled. -/
def plan_fft (sample_rate : ℚ) (frequency_resolution start_frequency end_frequency : ℤ) :
    FFTPlan :=
  let _fft_size0 : ℤ := dtoi (sample_rate / (frequency_resolution : ℚ))
  let fft_size1 : ℤ := 8192
  let fft_size2 : ℤ := if fft_size1 < 4 then 4 else fft_size1
  let res : ℤ := dtoi (sample_rate / (fft_size2 : ℚ))
  let pb : ℤ := cdiv (end_frequency - start_frequency + res - 1) res
  { fft_size := fft_size2, frequency_resolution := res, power_buckets := pb,
    power_accumulation := List.replicate pb.toNat 0,
    accumulation_count := 0, fft_fill := 0 }

/-! ## Accumulator (`handle_fft_out`, lines 1360-1396)

The complex FFT output is abstracted by its magnitudes: `mag k` stands for
`cabs(fftw_out[k])` of the frame being handled. -/

/-- The fields of `ProgramConfiguration` that `handle_fft_out` reads or
writes. -/
structure ScanState where
  current_frequency : ℤ
  start_frequency : ℤ
  tuning_bandwidth : ℤ
  frequency_resolution : ℤ
  power_buckets : ℤ
  fft_size : ℤ
  power_accumulation : List ℚ
  accumulation_count : ℤ
deriving DecidableEq

/-- Lines 1362-1367: `fft_power[s-1] = cabs(fftw_out[s])` for `s = 1 ..
fft_size-1`, so slot `j` of `fft_power` holds the magnitude of raw output
bin `j+1` (the DC bin `fftw_out[0]` is discarded). -/
def fft_power (mag : ℤ → ℚ) (j : ℤ) : ℚ := mag (j + 1)

/-- Line 1386: `current_frequency - tuning_bandwidth/2`. -/
def lowest_frequency_retained (st : ScanState) : ℤ :=
  st.current_frequency - cdiv st.tuning_bandwidth 2

/-- Line 1387: `(lowest_frequency_retained - start_frequency) /
frequency_resolution`. -/
def lowest_bin (st : ScanState) : ℤ :=
  cdiv (lowest_frequency_retained st - st.start_frequency) st.frequency_resolution

/-- Line 1388: `tuning_bandwidth / frequency_resolution`. -/
def bin_count (st : ScanState) : ℤ :=
  cdiv st.tuning_bandwidth st.frequency_resolution

/-- `handle_fft_out` (lines 1360-1396): drop the frame when the target bin
range falls outside `[0, power_buckets)` (lines 1390-1391), otherwise add
`fft_power[s]` into `power_accumulation[lowest_bin+s]` for
`s ∈ [0, bin_count)` (lines 1393-1394) — note the raw FFT order, the
re-ordering is only a REVISIT comment at line 1365 — and increment
`accumulation_count` (line 1395).  The loop touches each index once, so it
is rendered as a single indexed map. -/
def handle_fft_out (mag : ℤ → ℚ) (st : ScanState) : ScanState :=
  if lowest_bin st < 0 ∨ lowest_bin st + bin_count st > st.power_buckets then st
  else
    { st with
      power_accumulation :=
        st.power_accumulation.mapIdx fun i v =>
          if lowest_bin st ≤ (i : ℤ) ∧ (i : ℤ) < lowest_bin st + bin_count st then
            v + fft_power mag ((i : ℤ) - lowest_bin st)
          else v,
      accumulation_count := st.accumulation_count + 1 }

/-- Modelled from the spec (§4.4 bin reordering with §4.5 step 5): the
magnitude the claim says is added for a retained slot, namely that of the
FFT output bin whose signed baseband offset (`k · resolution` for
`k < fft_size/2`, `(k − fft_size) · resolution` for `k ≥ fft_size/2`)
equals the slot's target offset
`(lowest_frequency_retained + j · resolution) − current_frequency`. -/
def spec_added_value (mag : ℤ → ℚ) (fft_size frequency_resolution target_offset : ℤ) : ℚ :=
  if 0 ≤ target_offset then mag (Int.tdiv target_offset frequency_resolution)
  else mag (fft_size + Int.tdiv target_offset frequency_resolution)

/-- Modelled from the spec (§4.1 rule 12): the smallest power of two at least
`n` (fuel-based so it computes by kernel reduction; `n` itself is always
enough fuel since the argument at least halves each step). -/
def round_up_pow2_fuel : ℕ → ℕ → ℕ
  | 0, _ => 1
  | fuel + 1, n => if n ≤ 1 then 1 else 2 * round_up_pow2_fuel fuel ((n + 1) / 2)

/-- Modelled from the spec (§4.1 rule 12): `round_up_pow2`. -/
def round_up_pow2 (n : ℕ) : ℕ := round_up_pow2_fuel n n

/-- Modelled from the spec (§4.1 rule 12): the resolution-driven FFT size,
`round_up_pow2(sample_rate / frequency_resolution)` clamped into
`[4, 2^16]`. -/
def spec_fft_size (sample_rate : ℚ) (frequency_resolution : ℤ) : ℤ :=
  let p : ℤ := (round_up_pow2 ⌈sample_rate / (frequency_resolution : ℚ)⌉.toNat : ℕ)
  if p < 4 then 4 else if (2 : ℤ) ^ 16 < p then (2 : ℤ) ^ 16 else p

/-! ## Scan loop and signals (`scan` lines 1222-1245, `main` lines 1206-1220,
`interrupt_request` lines 1732-1735)

`signals_caught` is written asynchronously by the signal handler; the model
reads it through `sig i`, the value seen by the check at the top of tuning
iteration `i` (line 1231).  `retune` and the dwell loop are modelled as
succeeding — `receive_block` contains no signal check, so signals cannot cut
a dwell short.  The result is the number of retunes issued and the boolean
`scan` returns. -/

/-- The tuning loop of `scan` (lines 1229-1242), with `i` the index of the
next iteration and the second argument the iterations remaining. -/
def scan_tunings (sig : ℕ → ℕ) : ℕ → ℕ → ℕ × Bool
  | _, 0 => (0, true)
  | i, n + 1 =>
    if 1 < sig i then (0, false)
    else
      let r := scan_tunings sig (i + 1) n
      (r.1 + 1, r.2)

/-- `scan` (lines 1222-1245): number of retunes issued and its return value. -/
def scan (sig : ℕ → ℕ) (tuning_count : ℕ) : ℕ × Bool :=
  scan_tunings sig 0 tuning_count

/-- Line 1215 of `main`: the repetition loop goes on only when `scan`
returned true and no signal has been caught
(`if (!scan(pc) || signals_caught >= 1) break`). -/
def main_continues (scan_ok : Bool) (signals_caught : ℕ) : Bool :=
  scan_ok && !(decide (1 ≤ signals_caught))

/-! ## Concrete states used by witnesses and counterexamples -/

/-- Magnitudes distinguished by bin index, to expose which bin is read. -/
def mag_id : ℤ → ℚ := fun k => (k : ℚ)

/-- An in-range frame: centre 106, band 12 wide at resolution 1 over a
12-bucket accumulator starting at 100 (`lowest_bin = 0`, `bin_count = 12`). -/
def st_in_range : ScanState :=
  { current_frequency := 106, start_frequency := 100, tuning_bandwidth := 12,
    frequency_resolution := 1, power_buckets := 12, fft_size := 16,
    power_accumulation := List.replicate 12 0, accumulation_count := 0 }

/-- An out-of-range frame: centre 10 is far below the 100-based accumulator,
so `lowest_bin = -96 < 0`. -/
def st_edge_out : ScanState :=
  { current_frequency := 10, start_frequency := 100, tuning_bandwidth := 12,
    frequency_resolution := 1, power_buckets := 12, fft_size := 16,
    power_accumulation := List.replicate 12 0, accumulation_count := 0 }

/-! ## Theorems -/

/-- Helper: the first element of an indexed map over a nonempty list. -/
theorem getD_mapIdx_zero (f : ℕ → ℚ → ℚ) (x : ℚ) (l : List ℚ) :
    ((x :: l).mapIdx f).getD 0 0 = f 0 x := by
  rw [List.mapIdx_cons, List.getD_cons_zero]

/-- Helper: `getD` of a replicated zero list is zero at every index. -/
theorem getD_replicate_zero (n i : ℕ) : (List.replicate n (0 : ℚ)).getD i 0 = 0 := by
  induction n generalizing i with
  | zero => rfl
  | succ n ih =>
    rw [List.replicate_succ]
    cases i with
    | zero => rfl
    | succ i => exact ih i

/-- Helper: behaviour of the tuning loop of `scan`, as a function of the
first iteration index `k` (relative to start index `i`) at which the signal
count read exceeds one.  With `k = n` (no such iteration), all `n` tunings
retune and the loop ends normally; with `k < n`, exactly `k` retunes are
issued and `scan` returns `false` at the top of iteration `k`. -/
theorem scan_tunings_spec (sig : ℕ → ℕ) :
    ∀ (n i k : ℕ), k ≤ n → (∀ j, j < k → sig (i + j) ≤ 1) →
      (k < n → 1 < sig (i + k)) →
      scan_tunings sig i n = if k < n then (k, false) else (n, true) := by
  intro n
  induction n with
  | zero =>
    intro i k hk _ _
    have hk0 : k = 0 := Nat.le_zero.mp hk
    subst hk0
    simp [scan_tunings]
  | succ n ih =>
    intro i k hk hlow hhigh
    cases k with
    | zero =>
      have h1 : 1 < sig i := by simpa using hhigh (Nat.succ_pos n)
      simp [scan_tunings, h1]
    | succ k =>
      have h0 : sig i ≤ 1 := by simpa using hlow 0 (Nat.succ_pos k)
      have hnot : ¬ 1 < sig i := by omega
      have ih2 := ih (i + 1) k (Nat.succ_le_succ_iff.mp hk)
        (fun j hj => by
          have hj2 := hlow (j + 1) (Nat.succ_lt_succ hj)
          rwa [show i + 1 + j = i + (j + 1) by omega])
        (fun hkn => by
          have hk2 := hhigh (Nat.succ_lt_succ hkn)
          rwa [show i + 1 + k = i + (k + 1) by omega])
      simp only [scan_tunings, if_neg hnot, ih2]
      by_cases h : k < n
      · simp [h, Nat.succ_lt_succ h]
      · have h2 : ¬ (k + 1 < n + 1) := by omega
        simp [h, h2]

/-- Claim C1 (code_bug evaluation): at sample rate 1 MHz and requested
resolution 500 Hz the quotient is 2000, so the resolution-driven size of
spec §4.1 rule 12 is `round_up_pow2 2000 = 2048`; the code instead pins
`fft_size` to 8192 (line 1634 overwrites the line-1633 computation). -/
theorem plan_fft_size_pinned :
    (plan_fft 1000000 500 100000000 101000000).fft_size = 8192
    ∧ spec_fft_size 1000000 500 = 2048
    ∧ ((8192 : ℤ) ≠ 2048) := by
  refine ⟨by decide, ?_, by decide⟩
  unfold spec_fft_size
  rw [show (1000000 : ℚ) / ((500 : ℤ) : ℚ) = ((2000 : ℤ) : ℚ) by norm_num,
    Int.ceil_intCast]
  decide

/-- Claim C2 (code_bug evaluation): for the in-range frame `st_in_range`
(centre 106, bandwidth 12, resolution 1, `lowest_bin = 0`) with magnitudes
`mag_id k = k`, the value the code adds at retained slot `j = 0` is
`fft_power[0] = mag 1` (raw FFT order, bin 1), whereas the bin whose signed
baseband offset equals the slot's target offset −6 is bin 10
(`10 − fft_size = −6`); the two magnitudes differ, so the retained bins are
not stored in increasing absolute-frequency order. -/
theorem handle_fft_out_raw_order :
    (handle_fft_out mag_id st_in_range).power_accumulation.getD 0 0 = mag_id 1
    ∧ spec_added_value mag_id st_in_range.fft_size st_in_range.frequency_resolution
        ((lowest_frequency_retained st_in_range + 0 * st_in_range.frequency_resolution)
          - st_in_range.current_frequency) = mag_id 10
    ∧ mag_id 1 ≠ mag_id 10 := by
  refine ⟨?_, by decide, by decide⟩
  have hcond : ¬(lowest_bin st_in_range < 0
      ∨ lowest_bin st_in_range + bin_count st_in_range > st_in_range.power_buckets) := by
    decide
  have hacc : st_in_range.power_accumulation = 0 :: List.replicate 11 0 := by decide
  unfold handle_fft_out
  rw [if_neg hcond]
  rw [hacc, getD_mapIdx_zero]
  norm_num [mag_id, fft_power, lowest_bin, bin_count, lowest_frequency_retained, cdiv,
    st_in_range, (by decide : Int.tdiv 12 2 = 6)]

/-- Claim C3: a delivered frame whose computed bin range falls outside the
accumulator (`lowest_bin < 0` or `lowest_bin + bin_count > power_buckets`)
leaves the whole state unchanged — in particular no element of
`power_accumulation` changes and `accumulation_count` is not incremented —
and an in-range frame increments `accumulation_count` by exactly one. -/
theorem handle_fft_out_edge_drop (mag : ℤ → ℚ) (st : ScanState) :
    (lowest_bin st < 0 ∨ lowest_bin st + bin_count st > st.power_buckets →
      handle_fft_out mag st = st)
    ∧ (0 ≤ lowest_bin st ∧ lowest_bin st + bin_count st ≤ st.power_buckets →
      (handle_fft_out mag st).accumulation_count = st.accumulation_count + 1) := by
  constructor
  · intro h
    unfold handle_fft_out
    rw [if_pos h]
  · intro h
    have hn : ¬(lowest_bin st < 0 ∨ lowest_bin st + bin_count st > st.power_buckets) := by
      push_neg
      exact ⟨by omega, by omega⟩
    unfold handle_fft_out
    rw [if_neg hn]

/-- Claim C3 witness: the edge-drop at the concrete out-of-range frame
`st_edge_out` and the increment at the concrete in-range frame
`st_in_range`. -/
theorem handle_fft_out_edge_drop_witness :
    handle_fft_out mag_id st_edge_out = st_edge_out
    ∧ (handle_fft_out mag_id st_in_range).accumulation_count
        = st_in_range.accumulation_count + 1 :=
  ⟨(handle_fft_out_edge_drop mag_id st_edge_out).1 (by decide),
   (handle_fft_out_edge_drop mag_id st_in_range).2 (by decide)⟩

/-- Claim C4 counterexample: with `signals_caught = 1` from before the sweep
(one signal already caught) and three tunings planned, `scan` still issues
all three retunes and returns `true` — the first signal does not end the
scan at the next tuning boundary, and further retunes are issued. -/
theorem scan_first_signal_counterexample :
    (scan (fun _ => 1) 3).1 = 3 ∧ (scan (fun _ => 1) 3).2 = true := by decide

/-- Claim C4 (amended): let `k` be the first tuning index at which the
signal count read exceeds one (`k = tuning_count` when none does).  Then
`scan` issues exactly `k` retunes: a signal count of one is ignored inside
the sweep (all remaining tunings run, retunes included), while a count above
one makes `scan` return `false` at the next tuning-boundary check, before
the next retune.  After any sweep, `main` continues to the next repetition
only when `scan` returned `true` and the signal count is still zero, so one
caught signal ends the program at the next sweep boundary. -/
theorem scan_signal_boundaries (sig : ℕ → ℕ) (tc k : ℕ) (ok : Bool) (sc : ℕ)
    (hk : k ≤ tc) (hlow : ∀ i, i < k → sig i ≤ 1) (hhigh : k < tc → 1 < sig k) :
    scan sig tc = (if k < tc then (k, false) else (tc, true))
    ∧ (1 ≤ sc → main_continues ok sc = false) := by
  constructor
  · unfold scan
    exact scan_tunings_spec sig tc 0 k hk (fun j hj => by simpa using hlow j hj)
      (fun h => by simpa using hhigh h)
  · intro h
    have hd : decide (1 ≤ sc) = true := decide_eq_true h
    unfold main_continues
    rw [hd]
    simp

/-- Claim C4 witness: a second signal read at tuning index 1 of 3 stops the
scan after exactly one retune. -/
theorem scan_signal_boundaries_witness :
    scan (fun i => if i = 0 then 1 else 2) 3 = (if 1 < 3 then (1, false) else (3, true))
    ∧ (1 ≤ 2 → main_continues true 2 = false) :=
  scan_signal_boundaries (fun i => if i = 0 then 1 else 2) 3 1 true 2 (by decide)
    (fun i hi => by
      have h0 : i = 0 := by omega
      subst h0
      decide)
    (fun _ => by decide)

/-- Claim C5: for a plan from a configuration with `0 < start < end`,
positive sample rate and clamped crop ratio, the planned tunings cover the
requested span plus the crop overscan:
`tuning_count · tuning_bandwidth ≥ (end − start) + ⌊crop · sample_rate⌋`. -/
theorem plan_tuning_coverage (s e : ℤ) (sample_rate crop_ratio : ℚ) (scan_time : ℤ)
    (hs : 0 < s) (hse : s < e) (hr : 0 < sample_rate)
    (hc0 : 0 ≤ crop_ratio) (hc1 : crop_ratio ≤ max_crop_ratio) :
    e - s + ⌊crop_ratio * sample_rate⌋
      ≤ (plan_tuning s e sample_rate crop_ratio scan_time).tuning_count
        * (plan_tuning s e sample_rate crop_ratio scan_time).tuning_bandwidth := by
  have hm1 : max_crop_ratio < 1 := by decide
  have hcrop1 : crop_ratio < 1 := lt_of_le_of_lt hc1 hm1
  have htbq : (0 : ℚ) < sample_rate * (1 - crop_ratio) := mul_pos hr (by linarith)
  have htb : 0 < ⌈sample_rate * (1 - crop_ratio)⌉ := Int.ceil_pos.mpr htbq
  have htc : (plan_tuning s e sample_rate crop_ratio scan_time).tuning_count
      = ⌈((e - s + ⌊crop_ratio * sample_rate⌋ : ℤ) : ℚ)
          / ((⌈sample_rate * (1 - crop_ratio)⌉ : ℤ) : ℚ)⌉ := rfl
  have htb2 : (plan_tuning s e sample_rate crop_ratio scan_time).tuning_bandwidth
      = ⌈sample_rate * (1 - crop_ratio)⌉ := rfl
  rw [htc, htb2]
  have htbQ : (0 : ℚ) < ((⌈sample_rate * (1 - crop_ratio)⌉ : ℤ) : ℚ) := by
    exact_mod_cast htb
  have h1 := Int.le_ceil (((e - s + ⌊crop_ratio * sample_rate⌋ : ℤ) : ℚ)
    / ((⌈sample_rate * (1 - crop_ratio)⌉ : ℤ) : ℚ))
  have h2 := (div_le_iff₀ htbQ).mp h1
  exact_mod_cast h2

/-- Claim C5 witness: a single-tuning plan over 1 MHz of band at 1 MHz
sample rate and zero crop. -/
theorem plan_tuning_coverage_witness :
    (101000000 : ℤ) - 100000000 + ⌊(0 : ℚ) * 1000000⌋
      ≤ (plan_tuning 100000000 101000000 1000000 0 10).tuning_count
        * (plan_tuning 100000000 101000000 1000000 0 10).tuning_bandwidth :=
  plan_tuning_coverage 100000000 101000000 1000000 0 10 (by decide) (by decide)
    (by decide) (by decide) (by decide)

/-- Claim C6: when the end frequency is absent (`≤ 0`) or at most the start,
initialisation redefines the band with width exactly
`⌊sample_rate · (1 − crop_ratio)⌋` centred on the original start frequency
(to within the one unit lost when the truncated width is odd). -/
theorem initialise_band_auto_end (s e : ℤ) (sample_rate crop_ratio : ℚ)
    (hs : 0 < s) (hr : 0 ≤ sample_rate) (hc0 : 0 ≤ crop_ratio)
    (hc1 : crop_ratio ≤ max_crop_ratio) (he : e ≤ 0 ∨ e ≤ s) :
    (initialise_band s e sample_rate crop_ratio).2
        - (initialise_band s e sample_rate crop_ratio).1
      = ⌊sample_rate * (1 - crop_ratio)⌋
    ∧ ((initialise_band s e sample_rate crop_ratio).1
          + (initialise_band s e sample_rate crop_ratio).2 = 2 * s
        ∨ (initialise_band s e sample_rate crop_ratio).1
          + (initialise_band s e sample_rate crop_ratio).2 = 2 * s - 1) := by
  have hm1 : max_crop_ratio < 1 := by decide
  have hq : (0 : ℚ) ≤ sample_rate * (1 - crop_ratio) := by
    have : crop_ratio < 1 := lt_of_le_of_lt hc1 hm1
    exact mul_nonneg hr (by linarith)
  have hdb : dtoi (sample_rate * (1 - crop_ratio)) = ⌊sample_rate * (1 - crop_ratio)⌋ := by
    unfold dtoi
    rw [if_pos hq]
  have hdb0 : 0 ≤ ⌊sample_rate * (1 - crop_ratio)⌋ := Int.floor_nonneg.mpr hq
  have he1 : (if 0 < e ∧ e ≤ s then 0 else e) ≤ 0 := by
    rcases he with h | h <;> split <;> omega
  have hred : initialise_band s e sample_rate crop_ratio
      = (s + cdiv (dtoi (sample_rate * (1 - crop_ratio))) 2
            - dtoi (sample_rate * (1 - crop_ratio)),
         s + cdiv (dtoi (sample_rate * (1 - crop_ratio))) 2) := by
    simp only [initialise_band]
    rw [if_pos he1]
  rw [hred, hdb]
  dsimp only
  have h2 : cdiv ⌊sample_rate * (1 - crop_ratio)⌋ 2
      = ⌊sample_rate * (1 - crop_ratio)⌋ / 2 := by
    unfold cdiv
    exact Int.tdiv_eq_ediv hdb0 (by norm_num)
  rw [h2]
  omega

/-- Claim C6 witness: start 100 MHz, no end frequency, 1 MHz sample rate,
zero crop: the band becomes `[99.5 MHz, 100.5 MHz)`. -/
theorem initialise_band_auto_end_witness :
    (initialise_band 100000000 0 1000000 0).2 - (initialise_band 100000000 0 1000000 0).1
      = ⌊(1000000 : ℚ) * (1 - 0)⌋
    ∧ ((initialise_band 100000000 0 1000000 0).1
          + (initialise_band 100000000 0 1000000 0).2 = 2 * 100000000
        ∨ (initialise_band 100000000 0 1000000 0).1
          + (initialise_band 100000000 0 1000000 0).2 = 2 * 100000000 - 1) :=
  initialise_band_auto_end 100000000 0 1000000 0 (by decide) (by decide) (by decide)
    (by decide) (Or.inl (by decide))

/-- Claim C7 (code_bug evaluation): a command line `-R 2M` is rejected —
`optstring` contains no `R`, so `getopt` yields `'?'` and
`gather_parameters` fails into usage — even though the switch's dead
`case 'R'` handler would have set the cap to 2 000 000; and
`select_sample_rate` does choose the largest device rate within the cap
(largest overall when the cap is zero). -/
theorem gather_parameters_rejects_R :
    gather_parameters [('R', "2M")] = none
    ∧ (gather_case default_parameters 'R' "2M").map
        (fun cfg => cfg.requested_sample_rate) = some 2000000
    ∧ select_sample_rate 0 [8000000, 16000000, 10000000] 0 = 16000000
    ∧ select_sample_rate 12000000 [8000000, 16000000, 10000000] 0 = 10000000 := by
  exact ⟨by decide, by decide, by decide, by decide⟩

/-- Claim C8: the frequency literal grammar: `1k`, `2.5M`, `1g` and `100`
parse to 1 000, 2 500 000, 10⁹ and 100 with no error, and any input whose
number is followed by a character other than `k K m M g G` (or the end of
the string) returns 0 with the error reported. -/
theorem frequency_from_str_grammar :
    frequency_from_str "1k" = (1000, false)
    ∧ frequency_from_str "2.5M" = (2500000, false)
    ∧ frequency_from_str "1g" = (1000000000, false)
    ∧ frequency_from_str "100" = (100, false)
    ∧ ∀ (s : String) (m sc : ℤ) (c : Char) (r : List Char),
        strtodParse s.data = some (m, sc, c :: r) →
        c ∉ (['k', 'K', 'm', 'M', 'g', 'G'] : List Char) →
        frequency_from_str s = (0, true) := by
  refine ⟨by decide, by decide, by decide, by decide, ?_⟩
  intro s m sc c r h hc
  simp only [List.mem_cons, List.not_mem_nil, or_false, not_or] at hc
  obtain ⟨h1, h2, h3, h4, h5, h6⟩ := hc
  unfold frequency_from_str
  rw [h]
  simp [h1, h2, h3, h4, h5, h6]

/-- Claim C8 witness: `12x` has a valid number followed by the rejected
suffix `x`, and is refused with the error reported. -/
theorem frequency_from_str_grammar_witness :
    frequency_from_str "12x" = (0, true) :=
  frequency_from_str_grammar.2.2.2.2 "12x" 12 0 'x' [] (by decide) (by decide)

/-- Claim C9: failure is signalled in band: the valid literal `0` and an
invalid input both return the frequency 0, distinguished only by the stderr
report, which the caller does not see in the returned value. -/
theorem frequency_from_str_zero_ambiguous :
    (frequency_from_str "0").1 = 0 ∧ (frequency_from_str "0").2 = false
    ∧ (frequency_from_str "q").1 = 0 ∧ (frequency_from_str "q").2 = true
    ∧ (frequency_from_str "0").1 = (frequency_from_str "q").1 := by decide

/-- Claim C10: immediately after `plan_fft` succeeds, the accumulator holds
`power_buckets` entries all equal to 0 and `accumulation_count` is 0, so a
snapshot taken before the first in-range frame reads an all-zero
spectrum. -/
theorem plan_fft_accumulator_zeroed (sample_rate : ℚ) (frequency_resolution s e : ℤ) :
    (plan_fft sample_rate frequency_resolution s e).power_accumulation.length
        = (plan_fft sample_rate frequency_resolution s e).power_buckets.toNat
    ∧ (∀ i : ℕ,
        (plan_fft sample_rate frequency_resolution s e).power_accumulation.getD i 0 = 0)
    ∧ (plan_fft sample_rate frequency_resolution s e).accumulation_count = 0 := by
  refine ⟨?_, fun i => ?_, rfl⟩
  · show (List.replicate _ (0 : ℚ)).length = _
    rw [List.length_replicate]
    rfl
  · show (List.replicate _ (0 : ℚ)).getD i 0 = 0
    exact getD_replicate_zero _ i

end Powerscan
